import Mathlib

/-!
# Verification of the dhg-backup media-organization pipeline

Shallow embedding of the repository's core logic:
* `file_categorizer.py` — `FileCategorizer` (categories, screenshot heuristic,
  batch categorization, statistics);
* `exif_handler.py` — `ExifHandler` (EXIF / video timestamp extraction);
* `heic_converter.py` — `HeicConverter` (HEIC→JPEG conversion bookkeeping);
* `file_processor.py` — `FileProcessor` (directory scan, run driver, summary).

File contents and other I/O are abstracted as explicit environment values
passed to the embedded functions; every branch of the Python control flow is
represented.  Python exceptions that the source catches are modelled as
explicit outcome constructors; `datetime` values are a plain record of six
naturals.
-/

namespace DhgBackup

/-! ## Character/string helpers

The repository only ever manipulates ASCII file names; `String.toLower`
agrees with Python's `str.lower()` there.  Substring / prefix / suffix tests
mirror Python's `in`, `str.startswith`, `str.endswith` at the character-list
level. -/

/-- Python's `s.lower()` on the ASCII names this program handles, as a
character-by-character map (kernel-reducible, unlike `String.toLower`). -/
def strLower (s : String) : String :=
  (s.toList.map Char.toLower).asString

/-- Python's `pat in s` substring test, over character lists. -/
def subList (pat : List Char) : List Char → Bool
  | [] => pat.isEmpty
  | c :: t => pat.isPrefixOf (c :: t) || subList pat t

/-- Python's `pat in s` substring test on strings. -/
def strContains (s pat : String) : Bool :=
  subList pat.toList s.toList

/-- Python's `s.startswith(pat)`. -/
def strStartsWith (s pat : String) : Bool :=
  pat.toList.isPrefixOf s.toList

/-- Python's `s.endswith(pat)`. -/
def strEndsWith (s pat : String) : Bool :=
  pat.toList.isSuffixOf s.toList

/-- Last `/`-separated component of a path: `pathlib.Path(p).name` for the
slash-free, non-trailing-slash paths this program builds. -/
def lastComponent (cs : List Char) : List Char :=
  cs.foldl (fun acc c => if c = '/' then [] else acc ++ [c]) []

/-- `pathlib.Path(p).name`. -/
def pathName (p : String) : String :=
  (lastComponent p.toList).asString

/-- `pathlib.Path(p).suffix`: the extension of the final component, i.e. the
part of the name from its last dot on, but empty when that dot is the first
or the last character of the name. -/
def pathSuffix (p : String) : String :=
  let name := lastComponent p.toList
  match name.reverse.findIdx? (· = '.') with
  | none => ""
  | some j =>
    if j = 0 ∨ j = name.length - 1 then ""
    else ((name.reverse.take (j + 1)).reverse).asString

/-- `pathlib.Path(p).stem`: the final component with `pathSuffix` removed. -/
def pathStem (p : String) : String :=
  (pathName p).dropRight (pathSuffix p).length

/-- `os.path.join(root, name)` for a relative `name` (the only use in the
source). -/
def pjoin (root name : String) : String :=
  root ++ "/" ++ name

/-! ## `file_categorizer.py` — `FileCategory` and `FileCategorizer` -/

/-- `FileCategory` enumeration (`file_categorizer.py`). -/
inductive FileCategory
  | photo
  | video
  | screenshot
  | generated
  | unknown
  | sidecar
deriving DecidableEq, Repr

/-- `FileCategorizer.PHOTO_EXTENSIONS` (already lowercase in the source, so
the lowercased copy `photo_exts` built in `__init__` is the same set). -/
def photo_exts : List String :=
  [".jpg", ".jpeg", ".png", ".gif", ".heic", ".heif",
   ".tiff", ".tif", ".bmp", ".webp", ".dng", ".raw",
   ".cr2", ".nef", ".arw", ".orf", ".rw2"]

/-- `FileCategorizer.VIDEO_EXTENSIONS`. -/
def video_exts : List String :=
  [".mov", ".mp4", ".m4v", ".avi", ".mkv", ".wmv",
   ".flv", ".webm", ".3gp", ".mpg", ".mpeg"]

/-- `FileCategorizer.SCREENSHOT_EXTENSIONS`. -/
def screenshot_exts : List String := [".png"]

/-- `FileCategorizer.SIDECAR_EXTENSIONS`. -/
def sidecar_exts : List String := [".aae"]

/-- `FileCategorizer._is_likely_screenshot` applied to the lowercased file
name: first the explicit `startswith('img_3') and endswith('.png')` check,
then a substring match against the fixed `screenshot_patterns` list (which
includes the bare `'img_'` pattern). -/
def is_likely_screenshot (filename : String) : Bool :=
  let screenshot_patterns : List String :=
    ["screenshot", "screen shot", "img_", "simulator screen shot",
     "screen recording", "img_3", "screen_", "capture"]
  if strStartsWith filename "img_3" && strEndsWith filename ".png" then true
  else screenshot_patterns.any (fun pat => strContains filename pat)

/-- The screenshot-filename condition exactly as the spec states it
(`spec.md` §4.1 decision order, step 2a): a case-insensitive substring match
against `screenshot`, `screen shot`, `screen recording`, `screen_`,
`capture`, or a filename beginning `img_3` and ending `.png`.  Stated for
comparison with the code's `is_likely_screenshot`. -/
def claimScreenshotPred (filename : String) : Bool :=
  ["screenshot", "screen shot", "screen recording", "screen_", "capture"].any
    (fun pat => strContains filename pat)
  || (strStartsWith filename "img_3" && strEndsWith filename ".png")

/-- The condition `is_likely_screenshot` actually tests, reduced to a plain
substring match: the spec's five substring patterns plus the bare `img_`
pattern (which subsumes the `img_3` substring pattern, the
begins-with-`img_3`-and-ends-`.png` rule, and — via `screen shot` — the
`simulator screen shot` pattern). -/
def codeScreenshotPred (filename : String) : Bool :=
  ["screenshot", "screen shot", "screen recording", "screen_", "capture", "img_"].any
    (fun pat => strContains filename pat)

/-- `FileCategorizer.categorize_file`.  The content probe
`_is_generated_content` opens the file and inspects PNG text chunks / EXIF /
the UUID-shaped-stem rule, returning `False` on any exception; it is
abstracted here as the function `gen : String → Bool` from the file path to
the probe's result. -/
def categorize_file (gen : String → Bool) (file_path : String) : FileCategory :=
  let ext := strLower (pathSuffix file_path)
  let filename := strLower (pathName file_path)
  if sidecar_exts.contains ext then .sidecar
  else if screenshot_exts.contains ext then
    if is_likely_screenshot filename then .screenshot
    else if gen file_path then .generated
    else .photo
  else if photo_exts.contains ext then
    if gen file_path then .generated
    else .photo
  else if video_exts.contains ext then .video
  else .unknown

/-- The `categorized_files` dictionary of `FileCategorizer`: one list of
paths per category. -/
structure CategorizedFiles where
  photos : List String
  videos : List String
  screenshots : List String
  generated : List String
  unknown : List String
  sidecar : List String
deriving DecidableEq, Repr

/-- The freshly cleared `categorized_files` dictionary. -/
def CategorizedFiles.empty : CategorizedFiles :=
  ⟨[], [], [], [], [], []⟩

/-- Look up one category's list in the dictionary. -/
def CategorizedFiles.catList (c : CategorizedFiles) : FileCategory → List String
  | .photo => c.photos
  | .video => c.videos
  | .screenshot => c.screenshots
  | .generated => c.generated
  | .unknown => c.unknown
  | .sidecar => c.sidecar

/-- `self.categorized_files[category].append(file_path)`. -/
def CategorizedFiles.push (c : CategorizedFiles) (cat : FileCategory) (p : String) :
    CategorizedFiles :=
  match cat with
  | .photo => { c with photos := c.photos ++ [p] }
  | .video => { c with videos := c.videos ++ [p] }
  | .screenshot => { c with screenshots := c.screenshots ++ [p] }
  | .generated => { c with generated := c.generated ++ [p] }
  | .unknown => { c with unknown := c.unknown ++ [p] }
  | .sidecar => { c with sidecar := c.sidecar ++ [p] }

/-- `FileCategorizer.batch_categorize`: clear every category list, then for
each input path skip it when `os.path.exists` is false (logged only),
otherwise categorize and append.  `ex` abstracts `os.path.exists`. -/
def batch_categorize (ex gen : String → Bool) (file_paths : List String) :
    CategorizedFiles :=
  file_paths.foldl
    (fun acc p => if ex p then acc.push (categorize_file gen p) p else acc)
    CategorizedFiles.empty

/-- The dictionary returned by `FileCategorizer.get_categorization_stats`. -/
structure CategorizationStats where
  photos : Nat
  videos : Nat
  screenshots : Nat
  generated : Nat
  unknown : Nat
  sidecar : Nat
  total : Nat
deriving DecidableEq, Repr

/-- `FileCategorizer.get_categorization_stats`: per-category lengths plus
`total`, the sum of all six list lengths. -/
def get_categorization_stats (c : CategorizedFiles) : CategorizationStats :=
  { photos := c.photos.length
    videos := c.videos.length
    screenshots := c.screenshots.length
    generated := c.generated.length
    unknown := c.unknown.length
    sidecar := c.sidecar.length
    total := c.photos.length + c.videos.length + c.screenshots.length +
      c.generated.length + c.unknown.length + c.sidecar.length }

/-- `FileCategorizer.get_target_directory`: fixed subdirectory per placeable
category; `Sidecar` raises `ValueError` in the source, modelled as `none`. -/
def get_target_directory (category : FileCategory) (base_backup_dir : String) :
    Option String :=
  match category with
  | .photo => some (pjoin base_backup_dir "photos")
  | .video => some (pjoin base_backup_dir "videos")
  | .screenshot => some (pjoin base_backup_dir "screenshots")
  | .generated => some (pjoin base_backup_dir "generated")
  | .unknown => some (pjoin base_backup_dir "unknown")
  | .sidecar => none

/-! ## `exif_handler.py` — `ExifHandler`

`datetime.datetime` is embedded as a six-field record.  `datetime.strptime`
for the two fixed formats used by the source (`"%Y:%m:%d %H:%M:%S"` and
`"%Y-%m-%d %H:%M:%S"`) is implemented directly: four digits for `%Y`, one or
two digits (greedily) for the other fields, the literal separators in
between, the whole string consumed, and the `datetime` constructor's range
checks (month 1–12, day within the month, hour < 24, minute/second < 60,
year ≥ 1); any violation is a `ValueError`, i.e. `none`. -/

/-- A Python `datetime.datetime` value (date and time fields only; the
source never uses time zones or microseconds). -/
structure PyDateTime where
  year : Nat
  month : Nat
  day : Nat
  hour : Nat
  minute : Nat
  second : Nat
deriving DecidableEq, Repr

/-- Numeric value of a decimal digit character. -/
def digitVal (c : Char) : Nat := c.toNat - 48

/-- Consume exactly four decimal digits (`strptime`'s `%Y`). -/
def take4 : List Char → Option (Nat × List Char)
  | a :: b :: c :: d :: rest =>
    if a.isDigit && b.isDigit && c.isDigit && d.isDigit then
      some (1000 * digitVal a + 100 * digitVal b + 10 * digitVal c + digitVal d, rest)
    else none
  | _ => none

/-- Consume one or two decimal digits, greedily (`strptime`'s `%m`, `%d`,
`%H`, `%M`, `%S`; the numeric range checks happen in `mkDatetime`). -/
def take12 : List Char → Option (Nat × List Char)
  | [] => none
  | [c] => if c.isDigit then some (digitVal c, []) else none
  | c :: d :: rest =>
    if c.isDigit then
      if d.isDigit then some (10 * digitVal c + digitVal d, rest)
      else some (digitVal c, d :: rest)
    else none

/-- Consume one expected literal character. -/
def expectC (c : Char) : List Char → Option (List Char)
  | [] => none
  | x :: rest => if x = c then some rest else none

/-- Gregorian leap-year rule used by `datetime`. -/
def isLeapYear (y : Nat) : Bool :=
  (y % 4 = 0 && y % 100 ≠ 0) || y % 400 = 0

/-- Days in a month, as validated by the `datetime` constructor. -/
def daysInMonth (y m : Nat) : Nat :=
  if m = 2 then (if isLeapYear y then 29 else 28)
  else if m = 4 ∨ m = 6 ∨ m = 9 ∨ m = 11 then 30
  else 31

/-- The `datetime` constructor: validates every field, raising `ValueError`
(`none`) out of range. -/
def mkDatetime (y mo d h mi s : Nat) : Option PyDateTime :=
  if 1 ≤ y && 1 ≤ mo && mo ≤ 12 && 1 ≤ d && d ≤ daysInMonth y mo &&
     h ≤ 23 && mi ≤ 59 && s ≤ 59 then
    some ⟨y, mo, d, h, mi, s⟩
  else none

/-- `datetime.strptime` for the shape `%Y sepD %m sepD %d ' ' %H : %M : %S`
(with `sepD = ':'` this is the EXIF format `"%Y:%m:%d %H:%M:%S"`, with
`sepD = '-'` the video fallback format `"%Y-%m-%d %H:%M:%S"`).  Fails unless
the whole input is consumed. -/
def strptimeYmdHMS (sepD : Char) (cs : List Char) : Option PyDateTime := do
  let (y, r) ← take4 cs
  let r ← expectC sepD r
  let (mo, r) ← take12 r
  let r ← expectC sepD r
  let (d, r) ← take12 r
  let r ← expectC ' ' r
  let (h, r) ← take12 r
  let r ← expectC ':' r
  let (mi, r) ← take12 r
  let r ← expectC ':' r
  let (s, r) ← take12 r
  if r.isEmpty then mkDatetime y mo d h mi s else none

/-- `ExifHandler.TIMESTAMP_TAGS`, in source order. -/
def TIMESTAMP_TAGS : List String :=
  ["DateTimeOriginal", "DateTimeDigitized", "DateTime"]

/-- `ExifHandler.VIDEO_EXTENSIONS`. -/
def VIDEO_EXTENSIONS : List String :=
  [".mov", ".mp4", ".m4v", ".avi", ".mkv", ".wmv",
   ".flv", ".webm", ".3gp", ".mpg", ".mpeg"]

/-- `ExifHandler._is_video_file`. -/
def is_video_file (file_path : String) : Bool :=
  VIDEO_EXTENSIONS.contains (strLower (pathSuffix file_path))

/-- The mutable state of an `ExifHandler`: the `missing_exif_files` list. -/
structure ExifState where
  missing_exif_files : List String
deriving DecidableEq, Repr

/-- `self.missing_exif_files.append(file_path)`. -/
def ExifState.push (st : ExifState) (p : String) : ExifState :=
  ⟨st.missing_exif_files ++ [p]⟩

/-- Outcome of `Image.open(file_path)` / `image.getexif()` for one file:
either the call raised (any exception), or it produced EXIF data.  The EXIF
mapping is represented as the list of `(tag name, value)` pairs in the
iteration order of `exif_data.items()` (tag ids are shown through the
`PIL.ExifTags.TAGS` table, which is a fixed injective naming of the tags the
source cares about); the empty list is Python-falsy `exif_data`. -/
inductive ImageRead
  | raiseErr
  | exifData (tags : List (String × String))

/-- Outcome of the hachoir calls inside `_extract_video_timestamp`'s `try`:
the body raised, `createParser` returned a falsy parser, `extractMetadata`
returned falsy metadata, or metadata was obtained.  `direct` is the value of
the first of the attribute probes `creation_date`/`date`/`creation_time`/
`media_creation` that is present and truthy (`none` when the attribute loop
leaves `creation_date` falsy), and `lines` is `metadata.exportPlaintext()`. -/
inductive VideoOutcome
  | raiseErr
  | noParser
  | noMetadata
  | metadata (direct : Option PyDateTime) (lines : List String)

/-- The I/O environment an `ExifHandler` runs against: the module-level
`HACHOIR_AVAILABLE` flag plus, per path, the image-open and video-parse
outcomes. -/
structure ExifEnv where
  hachoirAvailable : Bool
  readImage : String → ImageRead
  readVideo : String → VideoOutcome

/-- `ExifHandler._parse_exif_datetime`: `strptime` with the EXIF format; on
`ValueError` the file is appended to `missing_exif_files` and `None` is
returned. -/
def parse_exif_datetime (st : ExifState) (datetime_str file_path : String) :
    Option PyDateTime × ExifState :=
  match strptimeYmdHMS ':' datetime_str.toList with
  | some dt => (some dt, st)
  | none => (none, st.push file_path)

/-- `re.search(r'(\d{4}-\d{2}-\d{2}[T ]\d{2}:\d{2}:\d{2})', line)` followed
by the `.replace('T', ' ')` on the matched group: try each start position
left to right, and on the first 19-character window of the required shape
return it with the separator normalized to a space. -/
def extractDateAt : List Char → Option (List Char)
  | a :: b :: c :: d :: '-' :: e :: f :: '-' :: g :: h :: sep :: i :: j :: ':' ::
      k :: l :: ':' :: m :: n :: _ =>
    if a.isDigit && b.isDigit && c.isDigit && d.isDigit &&
       e.isDigit && f.isDigit && g.isDigit && h.isDigit &&
       (sep = 'T' || sep = ' ') &&
       i.isDigit && j.isDigit && k.isDigit && l.isDigit &&
       m.isDigit && n.isDigit then
      some [a, b, c, d, '-', e, f, '-', g, h, ' ', i, j, ':', k, l, ':', m, n]
    else none
  | _ => none

/-- Leftmost match of the date pattern in a line. -/
def searchDate : List Char → Option (List Char)
  | [] => none
  | c :: t =>
    match extractDateAt (c :: t) with
    | some r => some r
    | none => searchDate t

/-- One keyword test from the plaintext scan:
`any(keyword in line_lower for keyword in ['creation', 'date', 'time'])`. -/
def keywordLine (line : String) : Bool :=
  ["creation", "date", "time"].any (fun k => strContains (strLower line) k)

/-- The `for line in metadata.exportPlaintext()` fallback loop: on a keyword
line, regex-search for the date pattern and `strptime` it; a missing match
or a parse error just moves on to the next line. -/
def scanVideoLines : List String → Option PyDateTime
  | [] => none
  | line :: rest =>
    if keywordLine line then
      match searchDate line.toList with
      | some cs =>
        match strptimeYmdHMS '-' cs with
        | some dt => some dt
        | none => scanVideoLines rest
      | none => scanVideoLines rest
    else scanVideoLines rest

/-- `ExifHandler._extract_video_timestamp`.  Every `None` return in the
source appends the path to `missing_exif_files` first; a successful
extraction returns the date with the state untouched. -/
def extract_video_timestamp (env : ExifEnv) (file_path : String) (st : ExifState) :
    Option PyDateTime × ExifState :=
  if !env.hachoirAvailable then (none, st.push file_path)
  else
    match env.readVideo file_path with
    | .raiseErr => (none, st.push file_path)
    | .noParser => (none, st.push file_path)
    | .noMetadata => (none, st.push file_path)
    | .metadata direct lines =>
      let creation_date :=
        match direct with
        | some d => some d
        | none => scanVideoLines lines
      match creation_date with
      | some d => (some d, st)
      | none => (none, st.push file_path)

/-- `ExifHandler.extract_timestamp`.  For images: no EXIF data appends the
path and returns `None`; otherwise the `for tag_id, value in
exif_data.items()` loop returns `_parse_exif_datetime(value)` at the *first
item in iteration order* whose tag name is in `TIMESTAMP_TAGS` (whatever its
rank, and with no further probing if that parse fails); no matching tag, or
an exception while reading, appends the path and returns `None`. -/
def extract_timestamp (env : ExifEnv) (file_path : String) (st : ExifState) :
    Option PyDateTime × ExifState :=
  if is_video_file file_path then extract_video_timestamp env file_path st
  else
    match env.readImage file_path with
    | .raiseErr => (none, st.push file_path)
    | .exifData tags =>
      if tags.isEmpty then (none, st.push file_path)
      else
        match tags.find? (fun t => TIMESTAMP_TAGS.contains t.1) with
        | some t => parse_exif_datetime st t.2 file_path
        | none => (none, st.push file_path)

/-! ## `heic_converter.py` — `HeicConverter` -/

/-- The mutable state of a `HeicConverter`: the `converted_files` list of
`(source, destination)` pairs and the `failed_conversions` list of
`(source, error message)` pairs. -/
structure HeicState where
  converted_files : List (String × String)
  failed_conversions : List (String × String)
deriving DecidableEq, Repr

/-- `HeicConverter.is_heic_file`: extension (lowercased) is `.heic` or
`.heif`. -/
def is_heic_file (file_path : String) : Bool :=
  [".heic", ".heif"].contains (strLower (pathSuffix file_path))

/-- `str(Path(p).parent / name)`: replace the final component of `p` by
`name`; for a bare filename `Path(p).parent` is `.` and pathlib renders
`./name` as just `name`. -/
def siblingPath (p name : String) : String :=
  if p.toList.contains '/' then
    pjoin (p.dropRight ((pathName p).length + 1)) name
  else name

/-- The I/O a `convert_heic_to_jpeg` call performs once it is past the
extension check — `mkdir`, `Image.open`, mode conversion, `getexif`, `save`
— abstracted per source path: `.ok` when the conversion pipeline succeeds,
`.error msg` when any of those steps raises (the message is `str(e)`). -/
def HeicEnv : Type := String → Except String Unit

/-- `HeicConverter.convert_heic_to_jpeg`.  A non-HEIC input only logs a
warning and returns `None` — it is inside the `try` but before any step that
can raise, so neither bookkeeping list changes.  Otherwise the output path
is `<output_dir or parent>/<stem>.jpg`; success appends to
`converted_files` and returns the output path, an exception appends to
`failed_conversions` and returns `None`. -/
def convert_heic_to_jpeg (env : HeicEnv) (st : HeicState) (heic_path : String)
    (output_dir : Option String) : Option String × HeicState :=
  if !is_heic_file heic_path then (none, st)
  else
    let output_path :=
      match output_dir with
      | some d => pjoin d (pathStem heic_path ++ ".jpg")
      | none => siblingPath heic_path (pathStem heic_path ++ ".jpg")
    match env heic_path with
    | .ok _ =>
      (some output_path, { st with converted_files := st.converted_files ++ [(heic_path, output_path)] })
    | .error e =>
      (none, { st with failed_conversions := st.failed_conversions ++ [(heic_path, e)] })

/-! ## `file_processor.py` — `FileProcessor` -/

/-- A directory tree used to model the filesystem under the export
directory: each entry is a plain file or a subdirectory with its own
entries, both carrying their base name. -/
inductive FSEntry
  | file (name : String)
  | dir (name : String) (entries : List FSEntry)
deriving Repr

mutual

/-- Model of `os.walk(root)` restricted to what the source consumes: the
stream of `(directory, filename)` pairs for *every* file in the tree, in
top-down order (a directory's own files first, then each subdirectory in
order).  `os.walk` never prunes: it descends into every subdirectory,
dot-named or not. -/
def osWalkFiles (root : String) (es : List FSEntry) : List (String × String) :=
  (es.filterMap fun e =>
    match e with
    | .file n => some (root, n)
    | .dir _ _ => none) ++ osWalkSubs root es

/-- The recursive descent of `osWalkFiles` into the subdirectories. -/
def osWalkSubs (root : String) : List FSEntry → List (String × String)
  | [] => []
  | .file _ :: rest => osWalkSubs root rest
  | .dir n cs :: rest => osWalkFiles (pjoin root n) cs ++ osWalkSubs root rest

end

/-- `FileProcessor._scan_export_directory`: `[]` when
`os.path.isdir(export_dir)` fails (modelled by `tree = none`, with the error
only logged); otherwise walk the tree and collect `os.path.join(root,
filename)` for every file whose name does not start with `'.'`. -/
def scan_export_directory (export_dir : String) (tree : Option (List FSEntry)) :
    List String :=
  match tree with
  | none => []
  | some es =>
    (osWalkFiles export_dir es).foldl
      (fun files rn => if strStartsWith rn.2 "." then files else files ++ [pjoin rn.1 rn.2])
      []

/-- The mutable state of a `FileProcessor`: the four bookkeeping lists
initialized in `__init__` (`processed_files`, `used_timestamps` — a set in
the source, but only ever the empty one —, `failed_files`,
`conversion_log`). -/
structure ProcState where
  processed_files : List String
  used_timestamps : List String
  failed_files : List (String × String)
  conversion_log : List (String × String)
deriving DecidableEq, Repr

/-- The state of a freshly constructed `FileProcessor`. -/
def ProcState.init : ProcState := ⟨[], [], [], []⟩

/-- The summary dictionary built by `FileProcessor._generate_summary`, with
its exact four keys. -/
structure Summary where
  files_processed : Nat
  files_failed : Nat
  processed_files : List String
  failed_files : List (String × String)
deriving DecidableEq, Repr

/-- `FileProcessor._generate_summary`. -/
def generate_summary (st : ProcState) : Summary :=
  { files_processed := st.processed_files.length
    files_failed := st.failed_files.length
    processed_files := st.processed_files
    failed_files := st.failed_files }

/-- The filesystem state `process_all_files` interacts with: the export
tree (`none` when the export directory does not exist) and whether the
backup directory exists / can be created. -/
structure WorldFS where
  exportTree : Option (List FSEntry)
  backupExists : Bool
  backupCreatable : Bool

/-- An observable filesystem mutation of the run. -/
inductive FsEffect
  | mkdirBackup (dir : String)
deriving DecidableEq, Repr

/-- `FileProcessor.ensure_target_directory`: create the backup directory
when absent, returning the list of created directories; `Path.mkdir` raising
(backup root uncreatable) propagates as an uncaught `OSError`. -/
def ensure_target_directory (fs : WorldFS) (base_backup_dir : String) :
    Except String (List String × List FsEffect) :=
  if fs.backupExists then .ok ([], [])
  else if fs.backupCreatable then
    .ok ([base_backup_dir], [.mkdirBackup base_backup_dir])
  else .error "mkdir failed"

/-- `FileProcessor.process_all_files`: scan; with no files, return the
summary at once; otherwise create the backup directory unless `dry_run`,
then return the summary.  (No per-file processing happens: the source never
calls `_process_single_file`, whose body is empty.)  The result pairs the
returned summary with the run's filesystem effects; an uncaught exception is
`Except.error`. -/
def process_all_files (fs : WorldFS) (export_dir backup_dir : String)
    (st : ProcState) (dry_run : Bool) : Except String (Summary × List FsEffect) :=
  let all_files := scan_export_directory export_dir fs.exportTree
  if all_files.isEmpty then .ok (generate_summary st, [])
  else if !dry_run then
    match ensure_target_directory fs backup_dir with
    | .ok (_, effs) => .ok (generate_summary st, effs)
    | .error e => .error e
  else .ok (generate_summary st, [])

/-! ## NameAllocator (modelled from the spec)

The repository's `FileProcessor` only *declares* the used-name bookkeeping
(`self.used_timestamps = set()`) and an empty `_process_single_file` stub;
the allocation routine itself is absent from the source.  It is therefore
modelled from spec §4.4. -/

/-- Decimal rendering of a natural number (the disambiguating counter). -/
def natToStr (n : Nat) : String :=
  ((Nat.digits 10 n).reverse.map (fun d => Char.ofNat (48 + d))).asString

/-- Two-digit zero-padded rendering of a timestamp field. -/
def pad2 (n : Nat) : String :=
  if n < 10 then "0" ++ natToStr n else natToStr n

/-- Modelled from the spec: the deterministic candidate base name a
`NameAllocator` derives from the resolved timestamp (§4.4 "builds a
candidate filename from the resolved timestamp"; §9 leaves the exact field
layout open, so a fixed `YYYYMMDD_HHMMSS` scheme is used). -/
def tsBaseName (ts : PyDateTime) : String :=
  natToStr ts.year ++ pad2 ts.month ++ pad2 ts.day ++ "_" ++
    pad2 ts.hour ++ pad2 ts.minute ++ pad2 ts.second

/-- The `k`-th candidate destination path for a base name: the base itself,
then the base with the disambiguating counter suffix `_k` appended. -/
def candName (base : String) : Nat → String
  | 0 => base
  | k + 1 => base ++ "_" ++ natToStr (k + 1)

/-- Modelled from the spec: "if the candidate is already present in
`usedNames` for this run, appends a disambiguating counter suffix and
retries until unique" (§4.4).  Trying `usedNames.length + 1` pairwise
distinct candidates always finds a free one; the fallback arm is dead code
(see `firstFree_not_mem`). -/
def firstFree (base : String) (usedNames : List String) : String :=
  match (List.range (usedNames.length + 1)).find?
      (fun k => !usedNames.contains (candName base k)) with
  | some k => candName base k
  | none => base

/-- Modelled from the spec: `allocate(category, timestamp, usedNames) →
path` (§4.4) — compute the target directory from the category (none for
`Sidecar`, which is never placed), build the timestamp-derived candidate,
disambiguate against `usedNames`, and register the chosen path in
`usedNames` before returning. -/
def allocate (backup_root : String) (category : FileCategory) (ts : PyDateTime)
    (usedNames : List String) : Option (String × List String) :=
  (get_target_directory category backup_root).map fun dir =>
    let path := firstFree (pjoin dir (tsBaseName ts)) usedNames
    (path, path :: usedNames)

/-- Modelled from the spec: one run's allocations in sequence, threading the
used-name set through (§3 `UsedNameSet`, §4.5 step 4); sidecar inputs (which
the Orchestrator never sends to the allocator) are skipped. -/
def allocateAll (backup_root : String) : List (FileCategory × PyDateTime) →
    List String → List String
  | [], _ => []
  | (c, t) :: rest, used =>
    match allocate backup_root c t used with
    | none => allocateAll backup_root rest used
    | some (p, used') => p :: allocateAll backup_root rest used'

/-! ## Helper lemmas -/

theorem subList_iff {pat s : List Char} : subList pat s = true ↔ pat <:+: s := by
  induction s with
  | nil =>
    simp only [subList, List.isEmpty_iff]
    exact ⟨fun h => h ▸ List.nil_infix, fun h => List.eq_nil_of_infix_nil h⟩
  | cons c t ih =>
    simp only [subList, Bool.or_eq_true, List.isPrefixOf_iff_prefix, ih,
      List.infix_cons_iff]

theorem strContains_iff {s pat : String} :
    strContains s pat = true ↔ pat.toList <:+: s.toList := subList_iff

theorem strContains_of_infix {s a b : String} (hab : a.toList <:+: b.toList)
    (hb : strContains s b = true) : strContains s a = true :=
  strContains_iff.mpr (hab.trans (strContains_iff.mp hb))

theorem strStartsWith_contains {s a b : String} (hab : a.toList <+: b.toList)
    (hb : strStartsWith s b = true) : strContains s a = true := by
  have hbs : b.toList <+: s.toList := by
    simpa [strStartsWith] using hb
  exact strContains_iff.mpr (hab.trans hbs).isInfix

/-- The screenshot heuristic of the source is exactly the plain six-pattern
substring match `codeScreenshotPred`. -/
theorem is_likely_screenshot_eq (n : String) :
    is_likely_screenshot n = codeScreenshotPred n := by
  simp only [is_likely_screenshot]
  by_cases hA : strStartsWith n "img_3" && strEndsWith n ".png"
  · simp only [hA, if_true]
    have h1 : strContains n "img_" = true := by
      rw [Bool.and_eq_true] at hA
      exact strStartsWith_contains (by decide) hA.1
    symm
    simp only [codeScreenshotPred, List.any_eq_true]
    exact ⟨"img_", by simp, h1⟩
  · simp only [hA, if_false, Bool.false_eq_true]
    rw [Bool.eq_iff_iff]
    simp only [List.any_eq_true, codeScreenshotPred]
    constructor
    · rintro ⟨pat, hpat, hc⟩
      simp only [List.mem_cons, List.not_mem_nil, or_false] at hpat
      rcases hpat with h | h | h | h | h | h | h | h <;> subst h
      · exact ⟨"screenshot", by simp, hc⟩
      · exact ⟨"screen shot", by simp, hc⟩
      · exact ⟨"img_", by simp, hc⟩
      · exact ⟨"screen shot", by simp, strContains_of_infix (by decide) hc⟩
      · exact ⟨"screen recording", by simp, hc⟩
      · exact ⟨"img_", by simp, strContains_of_infix (by decide) hc⟩
      · exact ⟨"screen_", by simp, hc⟩
      · exact ⟨"capture", by simp, hc⟩
    · rintro ⟨pat, hpat, hc⟩
      simp only [List.mem_cons, List.not_mem_nil, or_false] at hpat
      rcases hpat with h | h | h | h | h | h <;> subst h
      · exact ⟨"screenshot", by simp, hc⟩
      · exact ⟨"screen shot", by simp, hc⟩
      · exact ⟨"screen recording", by simp, hc⟩
      · exact ⟨"screen_", by simp, hc⟩
      · exact ⟨"capture", by simp, hc⟩
      · exact ⟨"img_", by simp, hc⟩

/-! ## Claim theorems -/

/-- C4 (counterexample): the spec's screenshot pattern set is not the one
the code tests.  `img_1234.png` carries no generated-content signal and
matches none of the claim's patterns (it does not begin with `img_3`), yet
`categorize_file` returns `Screenshot` — the source's pattern list also
contains the bare `'img_'` substring. -/
theorem categorize_img_png_counterexample :
    categorize_file (fun _ => false) "img_1234.png" = FileCategory.screenshot ∧
    claimScreenshotPred "img_1234.png" = false := by
  constructor <;> decide

/-- C4 (amended): for every `.png` file (case-insensitive extension) with no
generated-content signal, `categorize_file` returns `Screenshot` exactly
when the lowercase filename contains one of the substrings `screenshot`,
`screen shot`, `screen recording`, `screen_`, `capture`, or `img_` (the
source's extra bare-`img_` pattern subsumes both of the claim's `img_3`
rules); any other such `.png` file is categorized `Photo`. -/
theorem categorize_screenshot_iff (gen : String → Bool) (path : String)
    (hext : strLower (pathSuffix path) = ".png") (hgen : gen path = false) :
    (categorize_file gen path = FileCategory.screenshot ↔
      codeScreenshotPred (strLower (pathName path)) = true) ∧
    (categorize_file gen path = FileCategory.photo ↔
      codeScreenshotPred (strLower (pathName path)) = false) := by
  have hside : sidecar_exts.contains ".png" = false := by decide
  have hscr : screenshot_exts.contains ".png" = true := by decide
  simp only [categorize_file, hext, hside, hscr, Bool.false_eq_true, if_false,
    if_true, hgen, is_likely_screenshot_eq]
  cases h : codeScreenshotPred (strLower (pathName path)) <;> simp

/-- C4 (witness): the amended equivalence applied to the concrete input
`screenshot1.png` with a trivial content probe. -/
theorem categorize_screenshot_iff_witness :
    strLower (pathSuffix "screenshot1.png") = ".png" ∧
    (categorize_file (fun _ => false) "screenshot1.png" = FileCategory.screenshot ↔
      codeScreenshotPred (strLower (pathName "screenshot1.png")) = true) :=
  ⟨by decide,
   (categorize_screenshot_iff (fun _ => false) "screenshot1.png" (by decide) rfl).1⟩

/-- C5 (counterexample): the run summary cannot contain a converted-files
count — two processor states that differ in the conversion log (one logged
conversion versus none) produce identical summaries; the missing-timestamp
list is not even part of the `FileProcessor` state `_generate_summary`
reads (it lives in `ExifHandler.missing_exif_files`). -/
theorem summary_ignores_conversion_log :
    generate_summary ⟨[], [], [], [("a.heic", "a.jpg")]⟩ =
      generate_summary ⟨[], [], [], []⟩ ∧
    generate_summary ⟨[], [], [], []⟩ = ⟨0, 0, [], []⟩ := by
  constructor <;> rfl

/-- C5 (amended): the summary returned to the caller contains exactly the
counts of processed and failed files plus the two accumulated lists
(`processed_files`, `failed_files`); it is a function of those two lists
alone, so it carries no missing-timestamp or converted-file counts. -/
theorem generate_summary_content (st st' : ProcState)
    (hp : st.processed_files = st'.processed_files)
    (hf : st.failed_files = st'.failed_files) :
    generate_summary st = generate_summary st' ∧
    generate_summary st =
      ⟨st.processed_files.length, st.failed_files.length,
        st.processed_files, st.failed_files⟩ := by
  constructor
  · simp [generate_summary, hp, hf]
  · rfl

/-- C5 (witness): the amended statement at two concrete states differing in
`used_timestamps` and `conversion_log` only. -/
theorem generate_summary_content_witness :
    generate_summary ⟨["p"], ["t"], [("f", "r")], [("c", "d")]⟩ =
      generate_summary ⟨["p"], [], [("f", "r")], []⟩ ∧
    generate_summary ⟨["p"], ["t"], [("f", "r")], [("c", "d")]⟩ =
      ⟨1, 1, ["p"], [("f", "r")]⟩ :=
  generate_summary_content ⟨["p"], ["t"], [("f", "r")], [("c", "d")]⟩
    ⟨["p"], [], [("f", "r")], []⟩ rfl rfl

/-- C3 (counterexample): with the export directory absent (and the backup
root in any state), `process_all_files` does not abort — it returns a
normally completed summary with zero counts. -/
theorem process_missing_export_counterexample :
    process_all_files ⟨none, false, false⟩ "export_dir" "backup_dir"
      ProcState.init false = .ok (⟨0, 0, [], []⟩, []) := rfl

/-- C3 (amended): if the configured export directory does not exist at scan
time, `_scan_export_directory` only logs and returns an empty candidate
list, and `process_all_files` completes normally with the zero-count
summary of its current state and no filesystem effect — there is no fatal
abort in the processor (the fail-fast directory check lives in the CLI
layer, `CLIInterface.check_directories`). -/
theorem process_missing_export_completes (bE bC : Bool) (eD bD : String)
    (st : ProcState) (dry : Bool) :
    process_all_files ⟨none, bE, bC⟩ eD bD st dry =
      .ok (generate_summary st, []) := rfl

/-- C2 (code bug): `extract_timestamp` does not honour the documented rank
order `DateTimeOriginal > DateTimeDigitized > DateTime`, nor does it move to
the next tag when a value fails to parse.  With EXIF items iterating as
`[DateTime ↦ 2020:01:01 00:00:00, DateTimeOriginal ↦ 2021:06:15 10:30:00]`
it returns the `DateTime` value (first in iteration order); with
`[DateTimeOriginal ↦ "not a timestamp", DateTime ↦ 2020:01:01 00:00:00]` it
returns `None` and records the file as missing, without probing the
parseable `DateTime` tag. -/
theorem extract_timestamp_ignores_rank_order :
    extract_timestamp
      ⟨true, fun _ => .exifData
        [("DateTime", "2020:01:01 00:00:00"),
         ("DateTimeOriginal", "2021:06:15 10:30:00")],
       fun _ => .noParser⟩ "a.jpg" ⟨[]⟩ =
      (some ⟨2020, 1, 1, 0, 0, 0⟩, ⟨[]⟩) ∧
    extract_timestamp
      ⟨true, fun _ => .exifData
        [("DateTimeOriginal", "not a timestamp"),
         ("DateTime", "2020:01:01 00:00:00")],
       fun _ => .noParser⟩ "b.jpg" ⟨[]⟩ =
      (none, ⟨["b.jpg"]⟩) := by
  constructor <;> decide

/-- C9: for every input whose extension is not `.heic`/`.heif`
(case-insensitive), `convert_heic_to_jpeg` returns `None` with both the
`converted_files` and `failed_conversions` lists untouched, whatever the
conversion I/O would have done — so a `None` return does not imply a
recorded failed conversion. -/
theorem convert_non_heic_no_record (env : HeicEnv) (st : HeicState)
    (p : String) (od : Option String) (h : is_heic_file p = false) :
    convert_heic_to_jpeg env st p od = (none, st) := by
  simp [convert_heic_to_jpeg, h]

/-- C9 (witness): the non-HEIC early return at the concrete input
`photo.jpg`. -/
theorem convert_non_heic_no_record_witness :
    is_heic_file "photo.jpg" = false ∧
    convert_heic_to_jpeg (fun _ => .ok ()) ⟨[], []⟩ "photo.jpg" none =
      (none, ⟨[], []⟩) :=
  ⟨by decide, convert_non_heic_no_record (fun _ => .ok ()) ⟨[], []⟩
    "photo.jpg" none (by decide)⟩

/-- C6: over any fixed filesystem and processor state, a dry run returns
exactly the same summary as a real run (when the real run completes), and
performs no filesystem mutation at all; the real run either raises on an
uncreatable backup root or returns that same summary. -/
theorem dry_run_parity (fs : WorldFS) (eD bD : String) (st : ProcState) :
    process_all_files fs eD bD st true = .ok (generate_summary st, []) ∧
    (process_all_files fs eD bD st false = .error "mkdir failed" ∨
      ∃ effs, process_all_files fs eD bD st false =
        .ok (generate_summary st, effs)) := by
  obtain ⟨t, bE, bC⟩ := fs
  constructor
  · simp only [process_all_files]
    split <;> rfl
  · simp only [process_all_files, ensure_target_directory]
    split
    · right; exact ⟨[], rfl⟩
    · cases bE <;> cases bC <;> simp

/-- C7: for every input path and I/O environment (image or video,
well-formed or malformed, hachoir available or not), `extract_timestamp`
either succeeds with a parsed timestamp and leaves the handler state
untouched, or returns `None` having appended exactly this path to the
`missing_exif_files` list; being a total function of the modelled outcomes,
it propagates no exception. -/
theorem extract_timestamp_total_outcome (env : ExifEnv) (p : String)
    (st : ExifState) :
    (∃ dt, extract_timestamp env p st = (some dt, st)) ∨
    extract_timestamp env p st = (none, ⟨st.missing_exif_files ++ [p]⟩) := by
  by_cases hvid : is_video_file p
  · -- video branch
    simp only [extract_timestamp, hvid, if_true, extract_video_timestamp]
    by_cases hh : env.hachoirAvailable
    · simp only [hh, Bool.not_true, Bool.false_eq_true, if_false]
      cases hv : env.readVideo p with
      | raiseErr => right; simp [ExifState.push]
      | noParser => right; simp [ExifState.push]
      | noMetadata => right; simp [ExifState.push]
      | metadata direct lines =>
        cases direct with
        | some d => left; exact ⟨d, rfl⟩
        | none =>
          cases hs : scanVideoLines lines with
          | some d => left; exact ⟨d, by simp [hs]⟩
          | none => right; simp [hs, ExifState.push]
    · simp only [hh, Bool.not_false, if_true]
      right; simp [ExifState.push]
  · -- image branch
    simp only [extract_timestamp, hvid, if_false]
    cases hi : env.readImage p with
    | raiseErr => right; simp [ExifState.push]
    | exifData tags =>
      by_cases he : tags.isEmpty
      · simp only [he, if_true]
        right; simp [ExifState.push]
      · simp only [he, if_false]
        cases hf : tags.find? (fun t => TIMESTAMP_TAGS.contains t.1) with
        | none => right; simp [ExifState.push]
        | some t =>
          simp only [parse_exif_datetime]
          cases hp : strptimeYmdHMS ':' t.2.toList with
          | some dt => left; exact ⟨dt, rfl⟩
          | none => right; simp [ExifState.push]

/-- Folding the append-unless-hidden loop of `_scan_export_directory` is a
`filterMap` over the walked `(directory, filename)` stream. -/
theorem scan_foldl_eq (l : List (String × String)) (acc : List String) :
    l.foldl
      (fun files rn =>
        if strStartsWith rn.2 "." then files else files ++ [pjoin rn.1 rn.2])
      acc =
    acc ++ l.filterMap
      (fun rn =>
        if strStartsWith rn.2 "." then none else some (pjoin rn.1 rn.2)) := by
  induction l generalizing acc with
  | nil => simp
  | cons h t ih =>
    simp only [List.foldl_cons, List.filterMap_cons]
    by_cases hh : strStartsWith h.2 "."
    · simp [hh, ih]
    · simp [hh, ih]

/-- C8: directory scanning skips exactly the files whose own basename begins
with `.` — the scan is the walk of the whole tree filtered on the basename
alone — while the walk itself descends into every subdirectory whatever its
name (in particular dot-named ones); concretely, `pic.jpg` inside the hidden
directory `.hid` is collected while the dot-file `.ds` beside it is not. -/
theorem scan_skips_only_dot_files :
    (∀ eD es, scan_export_directory eD (some es) =
      (osWalkFiles eD es).filterMap
        (fun rn =>
          if strStartsWith rn.2 "." then none else some (pjoin rn.1 rn.2))) ∧
    (∀ root dname cs rest, osWalkSubs root (FSEntry.dir dname cs :: rest) =
      osWalkFiles (pjoin root dname) cs ++ osWalkSubs root rest) ∧
    scan_export_directory "r" (some [.dir ".hid" [.file "pic.jpg", .file ".ds"]]) =
      ["r/.hid/pic.jpg"] := by
  refine ⟨fun eD es => ?_, fun root dname cs rest => ?_, ?_⟩
  · simp only [scan_export_directory]
    simpa using scan_foldl_eq (osWalkFiles eD es) []
  · simp [osWalkSubs]
  · simp [scan_export_directory, osWalkFiles, osWalkSubs, pjoin, strStartsWith]

theorem catList_push (c : CategorizedFiles) (cat cat' : FileCategory) (p : String) :
    (c.push cat p).catList cat' =
      if cat = cat' then c.catList cat' ++ [p] else c.catList cat' := by
  cases cat <;> cases cat' <;>
    simp [CategorizedFiles.push, CategorizedFiles.catList]

theorem batch_fold_catList (ex gen : String → Bool) (paths : List String)
    (acc : CategorizedFiles) (cat : FileCategory) :
    (paths.foldl
      (fun acc p => if ex p then acc.push (categorize_file gen p) p else acc)
      acc).catList cat =
    acc.catList cat ++
      paths.filter (fun p => ex p && decide (categorize_file gen p = cat)) := by
  induction paths generalizing acc with
  | nil => simp
  | cons q t ih =>
    simp only [List.foldl_cons, List.filter_cons]
    by_cases hq : ex q
    · simp only [hq, if_true, ih, catList_push, Bool.true_and]
      by_cases hc : categorize_file gen q = cat
      · simp [hc]
      · simp [hc]
    · simp [hq, ih]

theorem stats_total_push (c : CategorizedFiles) (cat : FileCategory) (p : String) :
    (get_categorization_stats (c.push cat p)).total =
      (get_categorization_stats c).total + 1 := by
  cases cat <;>
    simp [CategorizedFiles.push, get_categorization_stats] <;> omega

theorem batch_fold_total (ex gen : String → Bool) (paths : List String)
    (acc : CategorizedFiles) :
    (get_categorization_stats
      (paths.foldl
        (fun acc p => if ex p then acc.push (categorize_file gen p) p else acc)
        acc)).total =
    (get_categorization_stats acc).total + (paths.filter (fun p => ex p)).length := by
  induction paths generalizing acc with
  | nil => simp
  | cons q t ih =>
    simp only [List.foldl_cons, List.filter_cons]
    by_cases hq : ex q
    · simp [hq, ih, stats_total_push]
      omega
    · simp [hq, ih]

/-- C10: `batch_categorize` silently drops every non-existing input path —
each category list is the input filtered to the existing paths of that
category, a non-existing path lands in no list, an existing input path lands
in exactly one category's list, and the `total` of
`get_categorization_stats` counts only the existing inputs; with one
non-existing input the total is strictly below the input count. -/
theorem batch_categorize_drops_missing (ex gen : String → Bool)
    (paths : List String) :
    (∀ cat, (batch_categorize ex gen paths).catList cat =
        paths.filter (fun p => ex p && decide (categorize_file gen p = cat))) ∧
    (∀ p, ex p = false → ∀ cat, p ∉ (batch_categorize ex gen paths).catList cat) ∧
    (∀ p ∈ paths, ex p = true →
        ∃! cat, p ∈ (batch_categorize ex gen paths).catList cat) ∧
    (get_categorization_stats (batch_categorize ex gen paths)).total =
      (paths.filter (fun p => ex p)).length ∧
    (get_categorization_stats
        (batch_categorize (fun _ => false) gen ["a.png"])).total <
      ["a.png"].length := by
  have hchar : ∀ cat, (batch_categorize ex gen paths).catList cat =
      paths.filter (fun p => ex p && decide (categorize_file gen p = cat)) := by
    intro cat
    have h := batch_fold_catList ex gen paths CategorizedFiles.empty cat
    have h0 : CategorizedFiles.empty.catList cat = [] := by cases cat <;> rfl
    rw [h0, List.nil_append] at h
    exact h
  refine ⟨hchar, ?_, ?_, ?_, ?_⟩
  · intro p hp cat hmem
    rw [hchar] at hmem
    have := (List.mem_filter.mp hmem).2
    simp [hp] at this
  · intro p hp hex
    refine ⟨categorize_file gen p, ?_, ?_⟩
    · show p ∈ (batch_categorize ex gen paths).catList (categorize_file gen p)
      rw [hchar]
      exact List.mem_filter.mpr ⟨hp, by simp [hex]⟩
    · intro cat hcat
      rw [hchar] at hcat
      have := (List.mem_filter.mp hcat).2
      simp only [Bool.and_eq_true, decide_eq_true_eq] at this
      exact this.2.symm
  · simpa [CategorizedFiles.empty, get_categorization_stats] using
      batch_fold_total ex gen paths CategorizedFiles.empty
  · simp [batch_categorize, CategorizedFiles.empty, get_categorization_stats]

/-- C10 (witness): a non-existing input path is in no category list — the
second conjunct of the theorem applied at a concrete batch. -/
theorem batch_categorize_drops_missing_witness :
    "b.png" ∉ (batch_categorize (fun _ => false) (fun _ => false)
      ["b.png"]).catList FileCategory.photo :=
  (batch_categorize_drops_missing (fun _ => false) (fun _ => false)
    ["b.png"]).2.1 "b.png" rfl FileCategory.photo

theorem digit_char_inj :
    ∀ a : Nat, a < 10 → ∀ b : Nat, b < 10 →
      Char.ofNat (48 + a) = Char.ofNat (48 + b) → a = b := by decide

theorem map_digitChar_inj :
    ∀ l1 l2 : List Nat, (∀ d ∈ l1, d < 10) → (∀ d ∈ l2, d < 10) →
      l1.map (fun d => Char.ofNat (48 + d)) = l2.map (fun d => Char.ofNat (48 + d)) →
      l1 = l2 := by
  intro l1
  induction l1 with
  | nil => intro l2 _ _ h; cases l2 <;> simp_all
  | cons a t ih =>
    intro l2 h1 h2 h
    cases l2 with
    | nil => simp at h
    | cons b t' =>
      simp only [List.map_cons, List.cons.injEq] at h
      have ha := h1 a (List.mem_cons_self a t)
      have hb := h2 b (List.mem_cons_self b t')
      have hab := digit_char_inj a ha b hb h.1
      subst hab
      have ht := ih t' (fun d hd => h1 d (List.mem_cons_of_mem a hd))
        (fun d hd => h2 d (List.mem_cons_of_mem a hd)) h.2
      rw [ht]

theorem natToStr_injective : Function.Injective natToStr := by
  intro m n h
  unfold natToStr at h
  rw [List.asString_inj] at h
  have hm : ∀ d ∈ (Nat.digits 10 m).reverse, d < 10 := by
    intro d hd
    exact Nat.digits_lt_base (by norm_num) (List.mem_reverse.mp hd)
  have hn : ∀ d ∈ (Nat.digits 10 n).reverse, d < 10 := by
    intro d hd
    exact Nat.digits_lt_base (by norm_num) (List.mem_reverse.mp hd)
  have hrev := map_digitChar_inj _ _ hm hn h
  have hdig : Nat.digits 10 m = Nat.digits 10 n := List.reverse_inj.mp hrev
  have := congrArg (Nat.ofDigits 10) hdig
  rwa [Nat.ofDigits_digits, Nat.ofDigits_digits] at this

theorem natToStr_len_pos (k : Nat) (hk : k ≠ 0) : 1 ≤ (natToStr k).length := by
  unfold natToStr
  rw [List.length_asString, List.length_map, List.length_reverse]
  exact List.length_pos.mpr (Nat.digits_ne_nil_iff_ne_zero.mpr hk)

theorem candName_injective (base : String) : Function.Injective (candName base) := by
  have hlen : ∀ k : Nat, base = candName base (k + 1) → False := by
    intro k h
    have hl := congrArg String.length h
    simp only [candName, String.length_append] at hl
    have := natToStr_len_pos (k + 1) (by omega)
    omega
  intro j k h
  match j, k with
  | 0, 0 => rfl
  | 0, k + 1 => exact absurd h (fun h => hlen k h)
  | j + 1, 0 => exact absurd h.symm (fun h => hlen j h)
  | j + 1, k + 1 =>
    simp only [candName] at h
    have hd := congrArg String.data h
    simp only [String.data_append, List.append_assoc] at hd
    have h1 := List.append_cancel_left hd
    have h2 := List.append_cancel_left h1
    have h3 : natToStr (j + 1) = natToStr (k + 1) := by
      rw [← String.toList_inj]
      exact h2
    rw [natToStr_injective h3]

theorem firstFree_not_mem (base : String) (used : List String) :
    firstFree base used ∉ used := by
  unfold firstFree
  cases hf : (List.range (used.length + 1)).find?
      (fun k => !used.contains (candName base k)) with
  | some k =>
    have h := List.find?_some hf
    simp only [Bool.not_eq_eq_eq_not, Bool.not_true] at h
    simpa using h
  | none =>
    exfalso
    have hall : ∀ k, k ∈ List.range (used.length + 1) →
        candName base k ∈ used := by
      intro k hk
      have := List.find?_eq_none.mp hf k hk
      simpa using this
    have hsub : ∀ k ∈ Finset.range (used.length + 1),
        candName base k ∈ used.toFinset := by
      intro k hk
      rw [List.mem_toFinset]
      exact hall k (List.mem_range.mpr (Finset.mem_range.mp hk))
    have hcard := Finset.card_le_card_of_injOn (fun k => candName base k) hsub
      (fun a _ b _ hab => candName_injective base hab)
    rw [Finset.card_range] at hcard
    have hle := List.toFinset_card_le (l := used)
    omega

theorem allocate_sound (root : String) (c : FileCategory) (t : PyDateTime)
    (used : List String) (p : String) (used' : List String)
    (h : allocate root c t used = some (p, used')) :
    p ∉ used ∧ used' = p :: used := by
  unfold allocate at h
  cases hg : get_target_directory c root with
  | none => rw [hg] at h; simp at h
  | some dir =>
    rw [hg] at h
    simp only [Option.map_some', Option.some.injEq, Prod.mk.injEq] at h
    obtain ⟨hp, hu⟩ := h
    subst hp
    exact ⟨firstFree_not_mem _ _, hu.symm⟩

/-- C1: name allocation never produces the same destination path twice in a
run — over any sequence of inputs (in particular two inputs with identical
category and resolved timestamp) and any starting used-name set, the paths
returned by the allocator are pairwise distinct, and none of them was
already used.  (The allocator itself is modelled from spec §4.4; the
repository's `FileProcessor` only declares the `used_timestamps`
bookkeeping.) -/
theorem allocateAll_nodup (root : String)
    (inputs : List (FileCategory × PyDateTime)) (used : List String) :
    (allocateAll root inputs used).Nodup ∧
    ∀ p ∈ allocateAll root inputs used, p ∉ used := by
  induction inputs generalizing used with
  | nil => simp [allocateAll]
  | cons it rest ih =>
    obtain ⟨c, t⟩ := it
    simp only [allocateAll]
    cases hg : allocate root c t used with
    | none => exact ih used
    | some pr =>
      obtain ⟨p, used'⟩ := pr
      obtain ⟨hpn, hused⟩ := allocate_sound root c t used p used' hg
      subst hused
      obtain ⟨hnd, hni⟩ := ih (p :: used)
      refine ⟨List.nodup_cons.mpr ⟨?_, hnd⟩, ?_⟩
      · intro hmem
        exact hni p hmem (List.mem_cons_self p used)
      · intro q hq
        rcases List.mem_cons.mp hq with rfl | hq'
        · exact hpn
        · exact fun hqu => hni q hq' (List.mem_cons_of_mem p hqu)

end DhgBackup
